import Mathlib

/-!
Shallow embedding of the DKRemindersBot core (`src/main.py`) and proofs about
its claims.

Conventions of the embedding:

* The application runs in one fixed timezone (`TZ = Europe/Madrid`), and every
  `datetime` it builds or compares is timezone-aware in that same zone, so an
  instant is modelled as a `Nat`: the number of seconds since 0001-01-01 00:00
  (proleptic Gregorian, the calendar of Python's `datetime`).  Day ordinal
  `o = t / 86400` corresponds to Python's `date.toordinal() - 1`; Python
  microseconds are not modelled (the code always builds instants with
  `second=0, microsecond=0`, and second-granularity comparison agrees with
  Python's on every branch the code takes).
* Python `datetime(...)` construction that can raise `ValueError`/
  `OverflowError` (out-of-range year/month/day/hour/minute) is modelled as an
  `Option`-returning constructor; an exception that propagates out of a
  function is an `Except.error`.
* The SQLite store is modelled as in-memory lists of rows with an
  auto-increment counter; `remind_at` / `sent_at` ISO strings are modelled
  directly as instants (`isoformat` / `fromisoformat` are mutually inverse on
  the timezone-aware datetimes the code stores).
-/

namespace DKReminders

/-! ### Calendar arithmetic (model of Python `datetime` / proleptic Gregorian) -/

def isLeap (y : Nat) : Bool :=
  (y % 4 == 0 && y % 100 != 0) || y % 400 == 0

def daysInMonthL (leap : Bool) (m : Nat) : Nat :=
  match m with
  | 1 => 31
  | 2 => if leap then 29 else 28
  | 3 => 31
  | 4 => 30
  | 5 => 31
  | 6 => 30
  | 7 => 31
  | 8 => 31
  | 9 => 30
  | 10 => 31
  | 11 => 30
  | 12 => 31
  | _ => 0

def daysInMonth (y m : Nat) : Nat := daysInMonthL (isLeap y) m

def daysInYear (y : Nat) : Nat := if isLeap y then 366 else 365

/-- Days in year `y` that precede month `m` (for `1 ≤ m ≤ 12`). -/
def daysBeforeMonth (leap : Bool) : Nat → Nat
  | 0 => 0
  | 1 => 0
  | m + 1 => daysBeforeMonth leap m + daysInMonthL leap m

/-- Days before January 1 of year `y`, counted from 0001-01-01 (ordinal 0). -/
def daysBeforeYear (y : Nat) : Nat :=
  365 * (y - 1) + (y - 1) / 4 + (y - 1) / 400 - (y - 1) / 100

/-- 0-based day ordinal of a calendar date (Python `date.toordinal() - 1`). -/
def toOrd (y m d : Nat) : Nat :=
  daysBeforeYear y + daysBeforeMonth (isLeap y) m + (d - 1)

/-- Starting from year `y`, peel whole years off a 0-based day count `n`;
returns the year that contains day `n` together with its 0-based day-of-year.
Structural recursion on a fuel that is never exhausted when `n < fuel`
(every step consumes at least 365 days). -/
def yearOfOrdA : Nat → Nat → Nat → Nat × Nat
  | 0, y, n => (y, n)
  | fuel + 1, y, n =>
    if daysInYear y ≤ n then yearOfOrdA fuel (y + 1) (n - daysInYear y)
    else (y, n)

/-- Starting from month `m`, peel whole months off a 0-based day-of-year;
returns the month together with the 1-based day-of-month.  Fuel 12 is never
exhausted starting from month 1. -/
def monthOfDoyA : Nat → Bool → Nat → Nat → Nat × Nat
  | 0, _, m, doy => (m, doy + 1)
  | fuel + 1, leap, m, doy =>
    if m < 12 ∧ daysInMonthL leap m ≤ doy then
      monthOfDoyA fuel leap (m + 1) (doy - daysInMonthL leap m)
    else (m, doy + 1)

/-- Calendar date `(year, month, day)` of a 0-based day ordinal
(model of Python `date.fromordinal`). -/
def dateOfOrdinal (n : Nat) : Nat × Nat × Nat :=
  let yd := yearOfOrdA (n + 1) 1 n
  let md := monthOfDoyA 12 (isLeap yd.1) 1 yd.2
  (yd.1, md.1, md.2)

/-- Total days of the `d` consecutive years starting at year `y` (proof
helper for relating `daysBeforeYear` with `yearOfOrdA`). -/
def daysInYearsRange (y : Nat) : Nat → Nat
  | 0 => 0
  | d + 1 => daysInYear y + daysInYearsRange (y + 1) d

/-- Largest day ordinal representable by Python `datetime` (9999-12-31). -/
def maxOrd : Nat := toOrd 9999 12 31

/-- Model of Python `datetime(year, month, day, hour, minute)` for a `year`
already known to be a `Nat` (from `dateOfOrdinal`): `some` instant, or `none`
for the `ValueError` on any out-of-range component. -/
def pyDatetime (y : Nat) (m d h mi : Int) : Option Nat :=
  if 1 ≤ y ∧ y ≤ 9999 ∧ 1 ≤ m ∧ m ≤ 12 ∧ 1 ≤ d ∧
      d ≤ (daysInMonth y m.toNat : Int) ∧ 0 ≤ h ∧ h ≤ 23 ∧ 0 ≤ mi ∧ mi ≤ 59 then
    some (toOrd y m.toNat d.toNat * 86400 + h.toNat * 3600 + mi.toNat * 60)
  else none

/-- Model of Python `datetime(d.year, d.month, d.day, hour, minute)` where the
date part is an already-valid date given by its ordinal `o` (so only the year
range and the time of day can fail). -/
def pyDatetimeOrd (o : Nat) (h mi : Int) : Option Nat :=
  if o ≤ maxOrd ∧ 0 ≤ h ∧ h ≤ 23 ∧ 0 ≤ mi ∧ mi ≤ 59 then
    some (o * 86400 + h.toNat * 3600 + mi.toNat * 60)
  else none

/-! ### Recurrence engine (`compute_next_occurrence`, src/main.py:1748-1853)

`pattern_type` together with its type-specific payload is modelled as one
inductive; the spec's `weekly_subset` is the code's `weekly_multi` string. -/

inductive Pattern where
  | daily : Pattern
  | weekly (weekday : Int) : Pattern
  | weeklyMulti (days : List Int) : Pattern
  | monthly (day : Int) : Pattern
  | yearly (month day : Int) : Pattern
deriving DecidableEq, Repr

/-- `weekly_multi` scan: `for delta in range(0, 8)` over day offsets. -/
def weeklyMultiLoop (days : List Int) (h mi : Int) (t : Nat) :
    Nat → Except Unit (Option Nat)
  | 0 => .ok none
  | fuel + 1 =>
    let delta := 8 - (fuel + 1)
    let o := t / 86400 + delta
    if ((o % 7 : Nat) : Int) ∈ days then
      match pyDatetimeOrd o h mi with
      | none => .error ()
      | some c => if t < c then .ok (some c) else weeklyMultiLoop days h mi t fuel
    else weeklyMultiLoop days h mi t fuel

/-- `monthly` scan: `for _ in range(24)` over months, advancing past months
where the day is invalid or the candidate is not strictly after `t`. -/
def monthlyLoop (day h mi : Int) (t : Nat) : Nat → Nat → Nat → Except Unit (Option Nat)
  | _, _, 0 => .ok none
  | y, m, fuel + 1 =>
    let next : Nat × Nat := if m + 1 > 12 then (y + 1, 1) else (y, m + 1)
    match pyDatetime y (m : Int) day h mi with
    | none => monthlyLoop day h mi t next.1 next.2 fuel
    | some c =>
      if c ≤ t then monthlyLoop day h mi t next.1 next.2 fuel else .ok (some c)

/-- `yearly` scan: `for _ in range(0, 12)` over years. -/
def yearlyLoop (month day h mi : Int) (t : Nat) : Nat → Nat → Except Unit (Option Nat)
  | _, 0 => .ok none
  | y, fuel + 1 =>
    match pyDatetime y month day h mi with
    | none => yearlyLoop month day h mi t (y + 1) fuel
    | some c => if c ≤ t then yearlyLoop month day h mi t (y + 1) fuel else .ok (some c)

/-- Model of `compute_next_occurrence(pattern_type, payload, time_hour,
time_minute, after_dt)`.  `.error ()` is a Python exception escaping the
function (invalid time of day / date overflow outside any `try`), `.ok none`
is Python `None`. -/
def compute_next_occurrence (p : Pattern) (h mi : Int) (t : Nat) :
    Except Unit (Option Nat) :=
  match p with
  | .daily =>
    -- local.replace(hour=.., minute=.., second=0, microsecond=0)
    if 0 ≤ h ∧ h ≤ 23 ∧ 0 ≤ mi ∧ mi ≤ 59 then
      let c := t / 86400 * 86400 + h.toNat * 3600 + mi.toNat * 60
      .ok (some (if c ≤ t then c + 86400 else c))
    else .error ()
  | .weekly w =>
    let o := t / 86400
    let delta := ((w - ((o % 7 : Nat) : Int) + 7) % 7).toNat
    if delta = 0 then
      match pyDatetimeOrd o h mi with
      | none => .error ()
      | some c =>
        if c ≤ t then
          match pyDatetimeOrd (o + 7) h mi with
          | none => .error ()
          | some c7 => .ok (some c7)
        else .ok (some c)
    else
      match pyDatetimeOrd (o + delta) h mi with
      | none => .error ()
      | some c => .ok (some c)
  | .weeklyMulti days =>
    if days = [] then .ok none else weeklyMultiLoop days h mi t 8
  | .monthly day =>
    -- base = local + timedelta(minutes=1); raises OverflowError past datetime.max
    if maxOrd < (t + 60) / 86400 then .error ()
    else
      let ymd := dateOfOrdinal ((t + 60) / 86400)
      monthlyLoop day h mi t ymd.1 ymd.2.1 24
  | .yearly month day =>
    let ymd := dateOfOrdinal (t / 86400)
    yearlyLoop month day h mi t ymd.1 12

/-! ### Schedule store (model of the SQLite tables in src/main.py)

A row of `reminders` (`init_db`): `delivered`, `acked`, `nudge_sent` default 0,
`sent_at` defaults NULL; `remind_at`/`sent_at` ISO strings are modelled as
instants. -/

structure ReminderRow where
  id : Nat
  chat_id : Int
  text : String
  remind_at : Nat
  created_by : Option Int
  delivered : Bool
  acked : Bool
  nudge_sent : Bool
  sent_at : Option Nat
  template_id : Option Nat
deriving DecidableEq, Repr

/-- A row of `recurring_templates`; `pattern_type` plus its JSON `payload`
are modelled together as a `Pattern`. -/
structure TemplateRow where
  id : Nat
  chat_id : Int
  text : String
  pattern : Pattern
  time_hour : Int
  time_minute : Int
  created_by : Option Int
  active : Bool
deriving DecidableEq, Repr

/-- The persisted state: both tables plus the reminder AUTOINCREMENT counter
(template ids are never allocated by the operations modelled here). -/
structure DB where
  reminders : List ReminderRow
  templates : List TemplateRow
  next_id : Nat
deriving DecidableEq, Repr

/-- Well-formedness of reachable SQLite states: primary keys are unique,
every allocated id is below the AUTOINCREMENT counter, and ids start at 1. -/
def DB.wf (db : DB) : Prop :=
  (db.reminders.map (·.id)).Nodup ∧
  (∀ r ∈ db.reminders, r.id < db.next_id) ∧
  0 < db.next_id

/-- `SELECT ... FROM reminders WHERE id = ?` (`get_reminder_row`). -/
def get_reminder_row (rid : Nat) (db : DB) : Option ReminderRow :=
  db.reminders.find? (fun r => r.id == rid)

/-- `SELECT ... FROM recurring_templates WHERE id = ?`
(`get_recurring_template_row`). -/
def get_recurring_template_row (tid : Nat) (db : DB) : Option TemplateRow :=
  db.templates.find? (fun t => t.id == tid)

/-- `INSERT INTO reminders (...) VALUES (..., delivered=0, ...)`
(`add_reminder`); returns the new row id. -/
def add_reminder (chat_id : Int) (text : String) (remind_at : Nat)
    (created_by : Option Int) (template_id : Option Nat) (db : DB) : Nat × DB :=
  (db.next_id,
   { db with
      reminders := db.reminders ++
        [{ id := db.next_id, chat_id := chat_id, text := text,
           remind_at := remind_at, created_by := created_by,
           delivered := false, acked := false, nudge_sent := false,
           sent_at := none, template_id := template_id }],
      next_id := db.next_id + 1 })

/-- `DELETE FROM reminders WHERE id = ? AND chat_id = ?`
(`delete_single_reminder_row`); returns the number of deleted rows. -/
def delete_single_reminder_row (reminder_id : Nat) (chat_id : Int) (db : DB) :
    Nat × DB :=
  let keep := db.reminders.filter
    (fun r => !(r.id == reminder_id && r.chat_id == chat_id))
  (db.reminders.length - keep.length, { db with reminders := keep })

/-- `UPDATE reminders SET delivered = 1, acked = 0, sent_at = ? WHERE id = ?`
(`mark_reminder_sent`, src/main.py:342-369).  Note: `nudge_sent` is NOT
touched by this statement. -/
def mark_reminder_sent (reminder_id : Nat) (sent_at : Nat) (db : DB) : DB :=
  { db with
      reminders := db.reminders.map (fun r =>
        if r.id == reminder_id then
          { r with delivered := true, acked := false, sent_at := some sent_at }
        else r) }

/-- `UPDATE recurring_templates SET active = 0 WHERE id = ?`
(`deactivate_recurring_template`). -/
def deactivate_recurring_template (template_id : Nat) (db : DB) : DB :=
  { db with
      templates := db.templates.map (fun t =>
        if t.id == template_id then { t with active := false } else t) }

/-- `UPDATE recurring_templates SET active = 1 WHERE id = ?`
(`activate_recurring_template`). -/
def activate_recurring_template (template_id : Nat) (db : DB) : DB :=
  { db with
      templates := db.templates.map (fun t =>
        if t.id == template_id then { t with active := true } else t) }

/-- `SELECT ... FROM reminders WHERE chat_id = ? AND template_id = ?`
(`get_reminders_by_template_id`). -/
def get_reminders_by_template_id (template_id : Nat) (chat_id : Int) (db : DB) :
    List ReminderRow :=
  db.reminders.filter
    (fun r => r.chat_id == chat_id && r.template_id == some template_id)

/-- `delete_recurring_series` (the effective definition, src/main.py:721-742):
delete the series' reminders in the chat, then `active = 0` on the template
(the template update has no chat filter); returns the deleted-reminder count. -/
def delete_recurring_series (template_id : Nat) (chat_id : Int) (db : DB) :
    Nat × DB :=
  let keep := db.reminders.filter
    (fun r => !(r.chat_id == chat_id && r.template_id == some template_id))
  let deleted := db.reminders.length - keep.length
  (deleted, deactivate_recurring_template template_id { db with reminders := keep })

/-! ### Deletion snapshots and undo -/

inductive SnapKind where
  | single : SnapKind
  | series : SnapKind
deriving DecidableEq, Repr

/-- A deletion snapshot dict.  `delete_single_reminder_with_snapshot` builds
`{kind, reminder, template}` (no `next_created_id` key, modelled as `none`);
`delete_recurring_one_instance_and_reschedule` additionally fills
`next_created_id`; series snapshots fill `reminders` and leave `reminder`
empty.  The legacy `mode` key is ignored by the effective
`restore_deleted_snapshot` (src/main.py:815-872) and is not modelled. -/
structure Snapshot where
  kind : SnapKind
  reminder : Option ReminderRow
  template : Option TemplateRow
  reminders : List ReminderRow
  next_created_id : Option Nat
deriving DecidableEq, Repr

/-- `delete_single_reminder_with_snapshot` (src/main.py:753-778). -/
def delete_single_reminder_with_snapshot (rid : Nat) (target_chat_id : Int)
    (db : DB) : Option Snapshot × DB :=
  match get_reminder_row rid db with
  | none => (none, db)
  | some r =>
    if r.chat_id ≠ target_chat_id then (none, db)
    else
      let tpl := r.template_id.bind (fun i => get_recurring_template_row i db)
      let del := delete_single_reminder_row rid target_chat_id db
      if del.1 = 0 then (none, del.2)
      else
        (some { kind := .single, reminder := some r, template := tpl,
                reminders := [], next_created_id := none }, del.2)

/-- `delete_recurring_one_instance_and_reschedule` (src/main.py:411-479).
The state is returned alongside the result even for the `.error` case (an
exception escaping after the row was already deleted leaves that deletion in
place). -/
def delete_recurring_one_instance_and_reschedule (rid : Nat) (chat_id : Int)
    (db : DB) : Except Unit (Option Snapshot) × DB :=
  match get_reminder_row rid db with
  | none => (.ok none, db)
  | some r =>
    if r.chat_id ≠ chat_id then (.ok none, db)
    else
      match r.template_id with
      | none => (.ok none, db)
      | some tplId =>
        match get_recurring_template_row tplId db with
        | none => (.ok none, db)
        | some tpl =>
          if tpl.active = false then (.ok none, db)
          else
            let del := delete_single_reminder_row rid chat_id db
            if del.1 = 0 then (.ok none, del.2)
            else
              let snap : Snapshot :=
                { kind := .single, reminder := some r, template := some tpl,
                  reminders := [], next_created_id := none }
              match compute_next_occurrence tpl.pattern tpl.time_hour
                  tpl.time_minute r.remind_at with
              | .error _ => (.error (), del.2)
              | .ok none => (.ok (some snap), del.2)
              | .ok (some nxt) =>
                let add := add_reminder r.chat_id r.text nxt r.created_by
                  (some tpl.id) del.2
                (.ok (some { snap with next_created_id := some add.1 }), add.2)

/-- `delete_recurring_series_with_snapshot` (src/main.py:781-812). -/
def delete_recurring_series_with_snapshot (template_id : Nat)
    (target_chat_id : Int) (db : DB) : Option Snapshot × DB :=
  match get_recurring_template_row template_id db with
  | none => (none, db)
  | some tpl =>
    if tpl.chat_id ≠ target_chat_id then (none, db)
    else
      let rs := get_reminders_by_template_id template_id target_chat_id db
      if rs = [] then
        (some { kind := .series, reminder := none, template := some tpl,
                reminders := [], next_created_id := none },
         deactivate_recurring_template template_id db)
      else
        let del := delete_recurring_series template_id target_chat_id db
        if del.1 = 0 then (none, del.2)
        else
          (some { kind := .series, reminder := none, template := some tpl,
                  reminders := rs, next_created_id := none }, del.2)

inductive RestoreResult where
  | single (rid : Nat) : RestoreResult
  | series (rids : List Nat) : RestoreResult
deriving DecidableEq, Repr

/-- The `for r in snapshot["reminders"]` loop of the series branch of
`restore_deleted_snapshot`: re-insert every captured reminder (at its original
`remind_at`) with the restored template's id, collecting the new row ids. -/
def restore_series_loop (tplId : Nat) : List ReminderRow → List Nat → DB →
    List Nat × DB
  | [], acc, db => (acc, db)
  | r :: rest, acc, db =>
    let add := add_reminder r.chat_id r.text r.remind_at r.created_by
      (some tplId) db
    restore_series_loop tplId rest (acc ++ [add.1]) add.2

/-- `restore_deleted_snapshot` (the effective definition,
src/main.py:815-872). -/
def restore_deleted_snapshot (snap : Snapshot) (db : DB) :
    Option RestoreResult × DB :=
  match snap.kind with
  | .single =>
    match snap.reminder with
    | none => (none, db)
    | some r =>
      -- `if next_id:` - Python truthiness, 0 is falsy
      let db1 := match snap.next_created_id with
        | some nid =>
          if nid ≠ 0 then (delete_single_reminder_row nid r.chat_id db).2 else db
        | none => db
      let actTpl : DB × Option Nat := match snap.template with
        | some tpl => (activate_recurring_template tpl.id db1, some tpl.id)
        | none => (db1, none)
      let add := add_reminder r.chat_id r.text r.remind_at r.created_by
        actTpl.2 actTpl.1
      (some (.single add.1), add.2)
  | .series =>
    match snap.template with
    | none => (none, db)
    | some tpl =>
      let db1 := activate_recurring_template tpl.id db
      let step := restore_series_loop tpl.id snap.reminders [] db1
      (some (.series step.1), step.2)

/-- Python truthiness of a restore result (`if not restored:` in
`undo_callback`): `None`, id `0` and the empty list are falsy. -/
def restoredTruthy : Option RestoreResult → Bool
  | none => false
  | some (.single rid) => rid != 0
  | some (.series rids) => !rids.isEmpty

inductive UndoReply where
  | unavailable : UndoReply
  | failed : UndoReply
  | restored : UndoReply
deriving DecidableEq, Repr

/-- `context.user_data["undo_tokens"]`: a dict from token to snapshot. -/
def lookupToken (ts : List (String × Snapshot)) (tok : String) :
    Option Snapshot :=
  (ts.find? (fun p => p.1 == tok)).map (·.2)

/-- The store/undo essence of `undo_callback` (src/main.py:3388-3444): look
the token up; if absent answer "Undo уже недоступен" without touching
anything; otherwise `del store[token]` first, then restore. -/
def undo_callback (tok : String) (ts : List (String × Snapshot)) (db : DB) :
    List (String × Snapshot) × DB × UndoReply :=
  match lookupToken ts tok with
  | none => (ts, db, .unavailable)
  | some snap =>
    let ts1 := ts.filter (fun p => p.1 != tok)
    let res := restore_deleted_snapshot snap db
    if restoredTruthy res.1 then (ts1, res.2, .restored)
    else (ts1, res.2, .failed)

/-! ### `_split_expr_and_text` (src/main.py:1066-1081)

`re.match(r"^(?P<expr>.+?)\s*[-–—]\s*(?P<text>.+)$", s)` on the stripped
input.  In a CPython `str` pattern, `\s` matches exactly the characters for
which `str.isspace()` holds — the same set `str.strip()` removes — and
`wsChar` lists that set.  Regex `.` (no `re.DOTALL`) matches every character
except `'\n'`, so neither group can cross a newline, while the `\s*` can;
`$` (no `re.MULTILINE`) matches at the end of the input or immediately
before one final `'\n'` (the latter cannot survive the initial
`str.strip()`).  The lazy `.+?` makes the match split at the textually
FIRST usable dash-class character. -/

/-- CPython's whitespace set, shared by `str.isspace()`, `str.strip()` and
regex `\s` on `str` patterns: U+0009..U+000D, U+001C..U+0020, U+0085,
U+00A0, U+1680, U+2000..U+200A, U+2028, U+2029, U+202F, U+205F, U+3000. -/
def wsChar (c : Char) : Bool :=
  decide ((9 ≤ c.toNat ∧ c.toNat ≤ 13) ∨ (28 ≤ c.toNat ∧ c.toNat ≤ 32) ∨
    c.toNat = 0x85 ∨ c.toNat = 0xA0 ∨ c.toNat = 0x1680 ∨
    (0x2000 ≤ c.toNat ∧ c.toNat ≤ 0x200A) ∨ c.toNat = 0x2028 ∨
    c.toNat = 0x2029 ∨ c.toNat = 0x202F ∨ c.toNat = 0x205F ∨
    c.toNat = 0x3000)

/-- The dash class `[-–—]`. -/
def dashChar (c : Char) : Bool :=
  c == '-' || c == '–' || c == '—'

def lstripL (s : List Char) : List Char := s.dropWhile wsChar

def rstripL (s : List Char) : List Char := (s.reverse.dropWhile wsChar).reverse

/-- Python `str.strip()`. -/
def stripL (s : List Char) : List Char := rstripL (lstripL s)

/-- No newline: the characters regex `.` can match. -/
def nlFree (l : List Char) : Bool := l.all (fun c => c != '\n')

/-- The regex tail `\s*(?P<text>.+)$` against `rest`: skip whitespace
(newlines included), take the maximal run of non-newline characters, and
require (`$`) that nothing, or one final `'\n'`, remains after it.
Backtracking gives the regex no further outcome on the inputs this is
applied to (suffixes of a stripped string): a shorter `\s*` or a shorter
`.+` still runs into the same interior newline. -/
def reTail (rest : List Char) : Option (List Char) :=
  let t := rest.dropWhile wsChar
  let t1 := t.takeWhile (fun c => c != '\n')
  let r := t.drop t1.length
  if t1 = [] then none
  else if r = [] ∨ r = ['\n'] then some t1 else none

/-- One attempt of the regex tail `\s*[-–—]\s*(?P<text>.+)$` against `rest`,
for a fixed candidate `expr`: the dash can only be the first non-whitespace
character of `rest` (the whitespace run `\s*` skips contains no dash). -/
def trySplitAt (expr rest : List Char) : Option (List Char × List Char) :=
  match rest.dropWhile wsChar with
  | [] => none
  | c :: tl =>
    if dashChar c then
      match reTail tl with
      | some t => some (expr, t)
      | none => none
    else none

/-- The lazy `.+?`: grow `expr` one character at a time — `.` never absorbs
a newline — trying the regex tail after each character. -/
def splitScan (expr : List Char) : List Char → Option (List Char × List Char)
  | [] => none
  | c :: tl =>
    if c = '\n' then none
    else
      match trySplitAt (expr ++ [c]) tl with
      | some r => some r
      | none => splitScan (expr ++ [c]) tl

/-- `_split_expr_and_text`: strip, regex-split, strip both groups, fail
(`ValueError`, modelled as `none`) on no match or an empty side. -/
def split_expr_and_text (s : String) : Option (String × String) :=
  let s' := stripL s.data
  match splitScan [] s' with
  | none => none
  | some et =>
    let e := stripL et.1
    let t := stripL et.2
    if e.isEmpty || t.isEmpty then none else some (String.mk e, String.mk t)

/-- Reference rendering of the amended claim's words: walk the input looking
for the first dash-class character such that (a) what stands before the
dash, once the whitespace run immediately preceding it is dropped, is
nonempty and contains no newline, and (b) after the whitespace run
following the dash a nonempty remainder with no interior newline is left
(`reTail`).  The expression is the part before the dash with trailing
whitespace removed, the body is that remainder. -/
def splitFirstDashAux (pre : List Char) : List Char → Option (List Char × List Char)
  | [] => none
  | c :: tl =>
    if dashChar c && !(rstripL pre).isEmpty && nlFree (rstripL pre) then
      match reTail tl with
      | some t => some (rstripL pre, t)
      | none => splitFirstDashAux (pre ++ [c]) tl
    else splitFirstDashAux (pre ++ [c]) tl

/-- The amended claim's split, end to end (same packaging as the code:
strip first, fail when no usable dash or an empty side). -/
def split_first_dash_spec (s : String) : Option (String × String) :=
  let s' := stripL s.data
  match splitFirstDashAux [] s' with
  | none => none
  | some et =>
    let e := stripL et.1
    let t := stripL et.2
    if e.isEmpty || t.isEmpty then none else some (String.mk e, String.mk t)

/-! ### Observers used by the claims -/

/-- The pending (undelivered) occurrences of series `tid`. -/
def pendingOfSeries (db : DB) (tid : Nat) : List ReminderRow :=
  db.reminders.filter (fun r => r.template_id == some tid && !r.delivered)

/-- The `active` flag of template `tid`, when the template exists. -/
def templateActive (db : DB) (tid : Nat) : Option Bool :=
  (db.templates.find? (fun t => t.id == tid)).map (·.active)

/-- A freshly inserted pending occurrence row: the row `add_reminder` creates
for id `nid`, the chat/text/creator of `r`, due instant `due` and series
`tid`. -/
def occRow (nid : Nat) (r : ReminderRow) (due : Nat) (tid : Nat) :
    ReminderRow :=
  { id := nid, chat_id := r.chat_id, text := r.text, remind_at := due,
    created_by := r.created_by, delivered := false, acked := false,
    nudge_sent := false, sent_at := none, template_id := some tid }

/-- The snapshot built by `delete_recurring_one_instance_and_reschedule`. -/
def oneInstanceSnap (r : ReminderRow) (tpl : TemplateRow) (nid : Option Nat) :
    Snapshot :=
  { kind := .single, reminder := some r, template := some tpl,
    reminders := [], next_created_id := nid }

/-- The snapshot built by `delete_recurring_series_with_snapshot`. -/
def seriesSnap (tpl : TemplateRow) (rs : List ReminderRow) : Snapshot :=
  { kind := .series, reminder := none, template := some tpl,
    reminders := rs, next_created_id := none }

/-- The rows `restore_deleted_snapshot` re-creates for a `series` snapshot:
one fresh undelivered row per captured row, with consecutive fresh ids, the
captured row's chat, text and original `remind_at`, pointing at the restored
template. -/
def freshRows (tplId : Nat) : Nat → List ReminderRow → List ReminderRow
  | _, [] => []
  | n, x :: xs => occRow n x x.remind_at tplId :: freshRows tplId (n + 1) xs

/-! ### Concrete fixtures for witnesses and counterexamples -/

def exTemplate : TemplateRow :=
  { id := 7, chat_id := 2, text := "standup", pattern := .daily,
    time_hour := 10, time_minute := 0, created_by := some 4, active := true }

def exReminder : ReminderRow :=
  { id := 1, chat_id := 2, text := "standup",
    remind_at := toOrd 2025 11 28 * 86400 + 36000, created_by := some 4,
    delivered := false, acked := false, nudge_sent := false, sent_at := none,
    template_id := some 7 }

def exDB : DB :=
  { reminders := [exReminder], templates := [exTemplate], next_id := 2 }

/-- A delivered, acknowledged reminder whose nudge was already sent. -/
def exNudged : ReminderRow :=
  { exReminder with
    delivered := true
    acked := true
    nudge_sent := true
    sent_at := some 100 }

def exDBNudged : DB :=
  { reminders := [exNudged], templates := [exTemplate], next_id := 2 }

def exSnap : Snapshot :=
  { kind := .single, reminder := some exReminder, template := some exTemplate,
    reminders := [], next_created_id := none }

def exTokens : List (String × Snapshot) := [("u1", exSnap)]

/-- The state after the first (successful) undo of token `"u1"`. -/
def exUndo1 : List (String × Snapshot) × DB × UndoReply :=
  undo_callback "u1" exTokens exDB

/-! ## Shared lemmas about the store primitives -/

theorem get_reminder_row_spec {rid : Nat} {db : DB} {r : ReminderRow}
    (h : get_reminder_row rid db = some r) : r ∈ db.reminders ∧ r.id = rid := by
  unfold get_reminder_row at h
  refine ⟨List.mem_of_find?_eq_some h, ?_⟩
  have hp := List.find?_some h
  simpa using hp

theorem get_recurring_template_row_spec {tid : Nat} {db : DB} {t : TemplateRow}
    (h : get_recurring_template_row tid db = some t) :
    t ∈ db.templates ∧ t.id = tid := by
  unfold get_recurring_template_row at h
  refine ⟨List.mem_of_find?_eq_some h, ?_⟩
  have hp := List.find?_some h
  simpa using hp

theorem length_filter_add_length_not {α : Type} (p : α → Bool) (l : List α) :
    (l.filter p).length + (l.filter (fun a => !p a)).length = l.length := by
  induction l with
  | nil => rfl
  | cons a tl ih => cases hpa : p a <;> simp [List.filter_cons, hpa] <;> omega

/-- Deleting by `(id, chat)` is erasing the unique row with that id, when
that row's chat matches. -/
theorem filter_keep_eq_erase (l : List ReminderRow) (r : ReminderRow)
    (rid : Nat) (chat : Int) (hnd : (l.map (·.id)).Nodup) (hmem : r ∈ l)
    (hid : r.id = rid) (hchat : r.chat_id = chat) :
    l.filter (fun x => !(x.id == rid && x.chat_id == chat)) = l.erase r := by
  induction l with
  | nil => cases hmem
  | cons a tl ih =>
    rw [List.map_cons, List.nodup_cons] at hnd
    rcases List.mem_cons.mp hmem with rfl | hmem'
    · rw [List.erase_cons_head]
      have hsel : (r.id == rid && r.chat_id == chat) = true := by
        simp [hid, hchat]
      rw [List.filter_cons, hsel]
      simp only [Bool.not_true, if_neg (by simp : ¬((false : Bool) = true))]
      apply List.filter_eq_self.mpr
      intro x hx
      have hxid : x.id ≠ rid := by
        intro he
        have hx' : x.id ∈ List.map (fun y => y.id) tl :=
          List.mem_map_of_mem (·.id) hx
        rw [he, ← hid] at hx'
        exact hnd.1 hx'
      simp [hxid]
    · have haid : a.id ≠ r.id := by
        intro he
        exact hnd.1 (he ▸ List.mem_map_of_mem (·.id) hmem')
      have hane : (a == r) = false := by
        apply beq_eq_false_iff_ne.mpr
        intro he
        exact haid (he ▸ rfl)
      have hka : (!(a.id == rid && a.chat_id == chat)) = true := by
        have : a.id ≠ rid := fun he => haid (he.trans hid.symm)
        simp [this]
      rw [List.erase_cons_tail, List.filter_cons, hka]
      · rw [if_pos rfl]
        exact congrArg (a :: ·) (ih hnd.2 hmem')
      · simpa using hane

/-- The kept rows of every row-deleting filter are rows of the original
list. -/
theorem mem_of_mem_filter_rows {l : List ReminderRow} {p : ReminderRow → Bool}
    {x : ReminderRow} (h : x ∈ l.filter p) : x ∈ l :=
  List.mem_of_mem_filter h

/-- `find?` by id over an id-preserving row update. -/
theorem find?_map_update {α : Type} (idOf : α → Nat) (g : α → α)
    (hg : ∀ x, idOf (g x) = idOf x) (rid : Nat) (l : List α) :
    (l.map (fun x => if idOf x == rid then g x else x)).find?
        (fun x => idOf x == rid) =
      (l.find? (fun x => idOf x == rid)).map g := by
  induction l with
  | nil => rfl
  | cons a tl ih =>
    simp only [List.map_cons]
    by_cases ha : idOf a = rid
    · have hba : (idOf a == rid) = true := beq_iff_eq.mpr ha
      have hga : (idOf (g a) == rid) = true := beq_iff_eq.mpr (by rw [hg]; exact ha)
      rw [if_pos hba]
      simp [List.find?_cons, hba, hga]
    · have hba : (idOf a == rid) = false := beq_eq_false_iff_ne.mpr ha
      rw [if_neg (by simp [hba])]
      simpa [List.find?_cons, hba] using ih

/-- `delete_single_reminder_with_snapshot` never writes to the templates
table, on any of its paths. -/
theorem delete_single_with_snapshot_templates (rid : Nat) (chat : Int)
    (db : DB) :
    (delete_single_reminder_with_snapshot rid chat db).2.templates =
      db.templates := by
  unfold delete_single_reminder_with_snapshot
  split
  · rfl
  · split
    · rfl
    · dsimp only
      split
      · rfl
      · rfl

/-! ## C9 -/

/-- C9: `delete_single_reminder_row` removes exactly one reminder row — the
one with the given id, when it exists and belongs to the requesting chat —
and leaves the templates table (hence every template's `active` flag)
unchanged; `delete_single_reminder_with_snapshot` likewise never touches the
templates table. -/
theorem delete_single_removes_exactly_one_row (rid : Nat) (chat : Int)
    (db : DB) (r : ReminderRow) (hwf : db.wf)
    (hr : get_reminder_row rid db = some r) (hchat : r.chat_id = chat) :
    (delete_single_reminder_row rid chat db).1 = 1 ∧
    (delete_single_reminder_row rid chat db).2 =
      { db with reminders := db.reminders.erase r } ∧
    (delete_single_reminder_with_snapshot rid chat db).2.templates =
      db.templates := by
  obtain ⟨hmem, hid⟩ := get_reminder_row_spec hr
  obtain ⟨hnd, -, -⟩ := hwf
  have hkeep := filter_keep_eq_erase db.reminders r rid chat hnd hmem hid hchat
  have hlen : (db.reminders.erase r).length = db.reminders.length - 1 :=
    List.length_erase_of_mem hmem
  have hpos : 0 < db.reminders.length :=
    List.length_pos.mpr (List.ne_nil_of_mem hmem)
  refine ⟨?_, ?_, delete_single_with_snapshot_templates rid chat db⟩
  · unfold delete_single_reminder_row
    dsimp only
    rw [hkeep, hlen]
    omega
  · unfold delete_single_reminder_row
    dsimp only
    rw [hkeep]

/-- Witness for C9 at a concrete store. -/
theorem delete_single_removes_exactly_one_row_witness :
    (delete_single_reminder_row 1 2 exDB).1 = 1 ∧
    (delete_single_reminder_row 1 2 exDB).2 =
      { exDB with reminders := exDB.reminders.erase exReminder } ∧
    (delete_single_reminder_with_snapshot 1 2 exDB).2.templates =
      exDB.templates :=
  delete_single_removes_exactly_one_row 1 2 exDB exReminder
    ⟨by decide, by decide, by decide⟩ rfl rfl

/-! ## C10 -/

/-- C10: when the stored reminder's `chat_id` differs from the requesting
chat id, both `delete_single_reminder_with_snapshot` and
`delete_recurring_one_instance_and_reschedule` return no snapshot and leave
the persisted state completely unchanged. -/
theorem delete_requires_matching_chat (rid : Nat) (chat : Int) (db : DB)
    (r : ReminderRow) (hr : get_reminder_row rid db = some r)
    (hne : r.chat_id ≠ chat) :
    delete_single_reminder_with_snapshot rid chat db = (none, db) ∧
    delete_recurring_one_instance_and_reschedule rid chat db =
      (.ok none, db) := by
  constructor
  · unfold delete_single_reminder_with_snapshot
    rw [hr]
    simp [hne]
  · unfold delete_recurring_one_instance_and_reschedule
    rw [hr]
    simp [hne]

/-- Witness for C10: chat 5 cannot delete chat 2's reminder. -/
theorem delete_requires_matching_chat_witness :
    delete_single_reminder_with_snapshot 1 5 exDB = (none, exDB) ∧
    delete_recurring_one_instance_and_reschedule 1 5 exDB =
      (.ok none, exDB) :=
  delete_requires_matching_chat 1 5 exDB exReminder rfl (by decide)

/-! ## C6 -/

/-- C6 (counterexample): the claim states `mark_delivered` resets the
escalated (`nudge_sent`) flag to false, but `mark_reminder_sent` only sets
`delivered = 1, acked = 0, sent_at = ?`, so a previously set `nudge_sent`
survives. -/
theorem mark_reminder_sent_nudge_counterexample :
    (get_reminder_row 1 (mark_reminder_sent 1 600 exDBNudged)).map
      (·.nudge_sent) = some true := by rfl

/-- C6 (amended): `mark_reminder_sent` sets the reminder's `delivered` flag,
stores the given `sent_at` and resets `acked` to false; it does NOT touch the
`nudge_sent` (escalated) flag — of this or of any row — nor the templates. -/
theorem mark_reminder_sent_spec (rid : Nat) (ts : Nat) (db : DB)
    (r : ReminderRow) (hr : get_reminder_row rid db = some r) :
    get_reminder_row rid (mark_reminder_sent rid ts db) =
      some { r with delivered := true, acked := false, sent_at := some ts } ∧
    (mark_reminder_sent rid ts db).templates = db.templates ∧
    (mark_reminder_sent rid ts db).reminders.map (·.nudge_sent) =
      db.reminders.map (·.nudge_sent) := by
  refine ⟨?_, rfl, ?_⟩
  · unfold get_reminder_row at hr ⊢
    unfold mark_reminder_sent
    rw [find?_map_update (·.id)
      (fun x => { x with delivered := true, acked := false, sent_at := some ts })
      (fun _ => rfl) rid db.reminders, hr]
    rfl
  · unfold mark_reminder_sent
    rw [List.map_map]
    apply List.map_congr_left
    intro a _
    by_cases ha : (a.id == rid) = true
    · simp [Function.comp, ha]
    · simp [Function.comp, ha]

/-- Witness for the amended C6 at a concrete store with the nudge flag set. -/
theorem mark_reminder_sent_spec_witness :
    get_reminder_row 1 (mark_reminder_sent 1 600 exDBNudged) =
      some { exNudged with
        delivered := true
        acked := false
        sent_at := some 600 } ∧
    (mark_reminder_sent 1 600 exDBNudged).templates = exDBNudged.templates ∧
    (mark_reminder_sent 1 600 exDBNudged).reminders.map (·.nudge_sent) =
      exDBNudged.reminders.map (·.nudge_sent) :=
  mark_reminder_sent_spec 1 600 exDBNudged exNudged rfl

/-! ## C7 -/

/-- C7 (counterexample): re-applying `mark_reminder_sent` with a different
`sent_at` overwrites the stored `sent_at`, so applying it twice with
different arguments does not leave the state of a single application. -/
theorem mark_reminder_sent_repoll_counterexample :
    mark_reminder_sent 1 700 (mark_reminder_sent 1 600 exDB) ≠
      mark_reminder_sent 1 600 exDB := by decide

/-- C7 (amended): `mark_reminder_sent` is idempotent for one and the same
`sent_at` argument: applying it twice in succession leaves exactly the state
of applying it once. -/
theorem mark_reminder_sent_idempotent (rid ts : Nat) (db : DB) :
    mark_reminder_sent rid ts (mark_reminder_sent rid ts db) =
      mark_reminder_sent rid ts db := by
  unfold mark_reminder_sent
  simp only [List.map_map]
  congr 1
  apply List.map_congr_left
  intro a _
  by_cases ha : (a.id == rid) = true
  · simp [Function.comp, ha]
  · simp [Function.comp, ha]

/-! ## C5 -/

/-- Consuming a token (`del store[token]`) removes every binding for it. -/
theorem lookupToken_filter_self (ts : List (String × Snapshot)) (tok : String) :
    lookupToken (ts.filter (fun p => p.1 != tok)) tok = none := by
  unfold lookupToken
  have h : (ts.filter (fun p => p.1 != tok)).find? (fun p => p.1 == tok) =
      none := by
    apply List.find?_eq_none.mpr
    intro p hp
    have hne := List.of_mem_filter hp
    simp only [bne_iff_ne, ne_eq] at hne
    simpa using hne
  rw [h]
  rfl

/-- C5: after one successful restore through an undo token, a second restore
attempt with the same token reports that the undo is no longer available
(`AlreadyConsumed`) and modifies neither the token store nor the persisted
state. -/
theorem undo_token_consumed_once (tok : String)
    (ts ts1 : List (String × Snapshot)) (db db1 : DB)
    (h : undo_callback tok ts db = (ts1, db1, .restored)) :
    undo_callback tok ts1 db1 = (ts1, db1, .unavailable) := by
  unfold undo_callback at h
  cases hl : lookupToken ts tok with
  | none =>
    rw [hl] at h
    have h3 := congrArg (fun x => x.2.2) h
    dsimp only at h3
    exact UndoReply.noConfusion h3
  | some snap =>
    rw [hl] at h
    dsimp only at h
    by_cases htr :
        restoredTruthy (restore_deleted_snapshot snap db).1 = true
    · rw [if_pos htr] at h
      have hts : ts.filter (fun p => p.1 != tok) = ts1 := congrArg (·.1) h
      unfold undo_callback
      rw [← hts, lookupToken_filter_self]
    · rw [if_neg htr] at h
      have h3 := congrArg (fun x => x.2.2) h
      dsimp only at h3
      exact UndoReply.noConfusion h3

/-- Witness for C5: a concrete token consumed by a successful undo. -/
theorem undo_token_consumed_once_witness :
    undo_callback "u1" exUndo1.1 exUndo1.2.1 =
      (exUndo1.1, exUndo1.2.1, .unavailable) :=
  undo_token_consumed_once "u1" exTokens exUndo1.1 exDB exUndo1.2.1 rfl

/-! ## C1 -/

theorem pyDatetimeOrd_some {o : Nat} {h mi : Int} {c : Nat}
    (hc : pyDatetimeOrd o h mi = some c) :
    c = o * 86400 + h.toNat * 3600 + mi.toNat * 60 := by
  unfold pyDatetimeOrd at hc
  split at hc
  · exact (Option.some.injEq _ _ ▸ hc).symm
  · cases hc

theorem weeklyMultiLoop_strict (days : List Int) (h mi : Int) (t : Nat) :
    ∀ fuel v, weeklyMultiLoop days h mi t fuel = .ok (some v) → t < v := by
  intro fuel
  induction fuel with
  | zero => intro v hv; simp [weeklyMultiLoop] at hv
  | succ f ih =>
    intro v hv
    unfold weeklyMultiLoop at hv
    dsimp only at hv
    by_cases hmem :
        ((((t / 86400 + (8 - (f + 1))) % 7 : Nat) : Int) ∈ days)
    · rw [if_pos hmem] at hv
      cases hpd : pyDatetimeOrd (t / 86400 + (8 - (f + 1))) h mi with
      | none => rw [hpd] at hv; simp at hv
      | some c =>
        rw [hpd] at hv
        dsimp only at hv
        by_cases htc : t < c
        · rw [if_pos htc] at hv
          simp only [Except.ok.injEq, Option.some.injEq] at hv
          omega
        · rw [if_neg htc] at hv
          exact ih v hv
    · rw [if_neg hmem] at hv
      exact ih v hv

theorem monthlyLoop_strict (day h mi : Int) (t : Nat) :
    ∀ fuel y m v, monthlyLoop day h mi t y m fuel = .ok (some v) → t < v := by
  intro fuel
  induction fuel with
  | zero => intro y m v hv; simp [monthlyLoop] at hv
  | succ f ih =>
    intro y m v hv
    unfold monthlyLoop at hv
    dsimp only at hv
    cases hpd : pyDatetime y (m : Int) day h mi with
    | none => rw [hpd] at hv; exact ih _ _ v hv
    | some c =>
      rw [hpd] at hv
      dsimp only at hv
      by_cases hct : c ≤ t
      · rw [if_pos hct] at hv
        exact ih _ _ v hv
      · rw [if_neg hct] at hv
        simp only [Except.ok.injEq, Option.some.injEq] at hv
        omega

theorem yearlyLoop_strict (month day h mi : Int) (t : Nat) :
    ∀ fuel y v, yearlyLoop month day h mi t y fuel = .ok (some v) → t < v := by
  intro fuel
  induction fuel with
  | zero => intro y v hv; simp [yearlyLoop] at hv
  | succ f ih =>
    intro y v hv
    unfold yearlyLoop at hv
    cases hpd : pyDatetime y month day h mi with
    | none => rw [hpd] at hv; exact ih _ v hv
    | some c =>
      rw [hpd] at hv
      dsimp only at hv
      by_cases hct : c ≤ t
      · rw [if_pos hct] at hv
        exact ih _ v hv
      · rw [if_neg hct] at hv
        simp only [Except.ok.injEq, Option.some.injEq] at hv
        omega

/-- C1: for every pattern type in {daily, weekly, weekly_subset (the code's
`weekly_multi`), monthly, yearly}, every payload, every time of day and every
reference instant: whenever `compute_next_occurrence` returns an instant at
all, that instant is strictly after the reference instant. -/
theorem compute_next_occurrence_strictly_after (p : Pattern) (h mi : Int)
    (t v : Nat) (hv : compute_next_occurrence p h mi t = .ok (some v)) :
    t < v := by
  have hmod := Nat.div_add_mod t 86400
  have hlt : t % 86400 < 86400 := Nat.mod_lt _ (by omega)
  cases p with
  | daily =>
    unfold compute_next_occurrence at hv
    dsimp only at hv
    split at hv
    · simp only [Except.ok.injEq, Option.some.injEq] at hv
      split at hv <;> omega
    · simp at hv
  | weekly w =>
    unfold compute_next_occurrence at hv
    dsimp only at hv
    by_cases hδ : ((w - ((t / 86400 % 7 : Nat) : Int) + 7) % 7).toNat = 0
    · rw [if_pos hδ] at hv
      cases hc : pyDatetimeOrd (t / 86400) h mi with
      | none => rw [hc] at hv; simp at hv
      | some c =>
        rw [hc] at hv
        dsimp only at hv
        have hcv := pyDatetimeOrd_some hc
        by_cases hct : c ≤ t
        · rw [if_pos hct] at hv
          cases hc7 : pyDatetimeOrd (t / 86400 + 7) h mi with
          | none => rw [hc7] at hv; simp at hv
          | some c7 =>
            rw [hc7] at hv
            dsimp only at hv
            have hc7v := pyDatetimeOrd_some hc7
            simp only [Except.ok.injEq, Option.some.injEq] at hv
            omega
        · rw [if_neg hct] at hv
          simp only [Except.ok.injEq, Option.some.injEq] at hv
          omega
    · rw [if_neg hδ] at hv
      cases hc : pyDatetimeOrd
          (t / 86400 + ((w - ((t / 86400 % 7 : Nat) : Int) + 7) % 7).toNat)
          h mi with
      | none => rw [hc] at hv; simp at hv
      | some c =>
        rw [hc] at hv
        dsimp only at hv
        have hcv := pyDatetimeOrd_some hc
        simp only [Except.ok.injEq, Option.some.injEq] at hv
        omega
  | weeklyMulti days =>
    unfold compute_next_occurrence at hv
    dsimp only at hv
    split at hv
    · simp at hv
    · exact weeklyMultiLoop_strict days h mi t 8 v hv
  | monthly day =>
    unfold compute_next_occurrence at hv
    dsimp only at hv
    split at hv
    · simp at hv
    · exact monthlyLoop_strict day h mi t 24 _ _ v hv
  | yearly month day =>
    unfold compute_next_occurrence at hv
    dsimp only at hv
    exact yearlyLoop_strict month day h mi t 12 _ v hv

/-- Witness for C1: a concrete daily pattern one second into a day. -/
theorem compute_next_occurrence_strictly_after_witness :
    compute_next_occurrence .daily 10 0 1000 = .ok (some 36000) ∧
      (1000 : Nat) < 36000 :=
  ⟨rfl, compute_next_occurrence_strictly_after .daily 10 0 1000 36000 rfl⟩

/-! ## Calendar correctness lemmas (for C2) -/

theorem isLeap_iff (y : Nat) : isLeap y = true ↔
    ((y % 4 = 0 ∧ y % 100 ≠ 0) ∨ y % 400 = 0) := by
  unfold isLeap
  simp [Bool.or_eq_true, Bool.and_eq_true, beq_iff_eq, bne_iff_ne]

theorem daysInYear_ge (y : Nat) : 365 ≤ daysInYear y := by
  unfold daysInYear
  split <;> omega

set_option maxHeartbeats 1000000 in
theorem daysBeforeYear_succ (k : Nat) :
    daysBeforeYear (k + 2) = daysBeforeYear (k + 1) + daysInYear (k + 1) := by
  have hiff := isLeap_iff (k + 1)
  unfold daysBeforeYear daysInYear
  cases hL : isLeap (k + 1) with
  | false =>
    rw [hL] at hiff
    simp only [Bool.false_eq_true, false_iff] at hiff
    rw [if_neg (by simp [hL])]
    omega
  | true =>
    rw [hL] at hiff
    simp only [true_iff] at hiff
    rw [if_pos rfl]
    omega

theorem daysInYearsRange_succ_right (d : Nat) :
    ∀ y, daysInYearsRange y (d + 1) =
      daysInYearsRange y d + daysInYear (y + d) := by
  induction d with
  | zero =>
    intro y
    simp [daysInYearsRange]
  | succ d ih =>
    intro y
    rw [show daysInYearsRange y (d + 1 + 1) =
        daysInYear y + daysInYearsRange (y + 1) (d + 1) from rfl,
      ih (y + 1),
      show daysInYearsRange y (d + 1) =
        daysInYear y + daysInYearsRange (y + 1) d from rfl]
    have h : y + 1 + d = y + (d + 1) := by omega
    rw [h, Nat.add_assoc]

theorem daysBeforeYear_eq_range (y : Nat) (hy : 1 ≤ y) :
    daysBeforeYear y = daysInYearsRange 1 (y - 1) := by
  obtain ⟨k, rfl⟩ : ∃ k, y = k + 1 := ⟨y - 1, by omega⟩
  clear hy
  induction k with
  | zero => rfl
  | succ k ih =>
    rw [show k + 1 + 1 = k + 2 from rfl, daysBeforeYear_succ k, ih,
      show k + 1 + 1 - 1 = k + 1 from rfl,
      show k + 1 - 1 = k from rfl,
      daysInYearsRange_succ_right k 1,
      show 1 + k = k + 1 from by omega]

theorem yearOfOrdA_correct :
    ∀ d y fuel doy, doy < daysInYear (y + d) →
      daysInYearsRange y d + doy < fuel →
      yearOfOrdA fuel y (daysInYearsRange y d + doy) = (y + d, doy) := by
  intro d
  induction d with
  | zero =>
    intro y fuel doy h1 h2
    obtain ⟨f, rfl⟩ : ∃ f, fuel = f + 1 := ⟨fuel - 1, by omega⟩
    show yearOfOrdA (f + 1) y (daysInYearsRange y 0 + doy) = (y + 0, doy)
    rw [show daysInYearsRange y 0 + doy = doy from by simp [daysInYearsRange]]
    unfold yearOfOrdA
    rw [if_neg (by rw [Nat.add_zero] at h1; omega)]
    rw [Nat.add_zero]
  | succ d ih =>
    intro y fuel doy h1 h2
    have h365 := daysInYear_ge y
    obtain ⟨f, rfl⟩ : ∃ f, fuel = f + 1 := ⟨fuel - 1, by omega⟩
    have harg : daysInYearsRange y (d + 1) + doy =
        daysInYear y + (daysInYearsRange (y + 1) d + doy) := by
      rw [show daysInYearsRange y (d + 1) =
        daysInYear y + daysInYearsRange (y + 1) d from rfl]
      omega
    rw [harg]
    unfold yearOfOrdA
    rw [if_pos (by omega)]
    rw [show daysInYear y + (daysInYearsRange (y + 1) d + doy) - daysInYear y =
      daysInYearsRange (y + 1) d + doy from by omega]
    have h1' : doy < daysInYear (y + 1 + d) := by
      rw [show y + 1 + d = y + (d + 1) from by omega]
      exact h1
    have h2' : daysInYearsRange (y + 1) d + doy < f := by
      rw [harg] at h2
      omega
    rw [ih (y + 1) f doy h1' h2',
      show y + 1 + d = y + (d + 1) from by omega]

theorem daysInYearsRange_le_add (y d k : Nat) :
    daysInYearsRange y d ≤ daysInYearsRange y (d + k) := by
  induction k with
  | zero => exact le_refl _
  | succ k ih =>
    rw [show d + (k + 1) = d + k + 1 from rfl, daysInYearsRange_succ_right]
    omega

theorem daysBeforeYear_mono {a b : Nat} (ha : 1 ≤ a) (h : a ≤ b) :
    daysBeforeYear a ≤ daysBeforeYear b := by
  rw [daysBeforeYear_eq_range a ha, daysBeforeYear_eq_range b (by omega)]
  have hle := daysInYearsRange_le_add 1 (a - 1) (b - a)
  rw [show a - 1 + (b - a) = b - 1 from by omega] at hle
  exact hle

theorem dateOfOrdinal_eq (y doy : Nat) (hy : 1 ≤ y)
    (hdoy : doy < daysInYear y) :
    dateOfOrdinal (daysBeforeYear y + doy) =
      (y, (monthOfDoyA 12 (isLeap y) 1 doy).1,
        (monthOfDoyA 12 (isLeap y) 1 doy).2) := by
  unfold dateOfOrdinal
  rw [daysBeforeYear_eq_range y hy]
  have h1d : 1 + (y - 1) = y := by omega
  rw [yearOfOrdA_correct (y - 1) 1 _ doy (by rw [h1d]; exact hdoy) (by omega)]
  rw [h1d]

theorem monthOfDoyA_jan (leap : Bool) (doy : Nat) (h : doy < 31) :
    monthOfDoyA 12 leap 1 doy = (1, doy + 1) := by
  unfold monthOfDoyA
  rw [if_neg (by rw [show daysInMonthL leap 1 = 31 from rfl]; omega)]

theorem monthOfDoyA_feb (leap : Bool) (doy : Nat) (h31 : 31 ≤ doy)
    (h : doy < 31 + daysInMonthL leap 2) :
    monthOfDoyA 12 leap 1 doy = (2, doy - 31 + 1) := by
  unfold monthOfDoyA
  rw [if_pos (by rw [show daysInMonthL leap 1 = 31 from rfl]; omega)]
  rw [show daysInMonthL leap 1 = 31 from rfl]
  show monthOfDoyA 11 leap 2 (doy - 31) = (2, doy - 31 + 1)
  unfold monthOfDoyA
  rw [if_neg (by omega)]

theorem dateOfOrdinal_jan (y d : Nat) (hy : 1 ≤ y) (hd1 : 1 ≤ d)
    (hd : d ≤ 31) :
    dateOfOrdinal (daysBeforeYear y + (d - 1)) = (y, 1, d) := by
  rw [dateOfOrdinal_eq y (d - 1) hy (by have := daysInYear_ge y; omega)]
  rw [monthOfDoyA_jan (isLeap y) (d - 1) (by omega)]
  rw [show d - 1 + 1 = d from by omega]

theorem dateOfOrdinal_feb (y d : Nat) (hy : 1 ≤ y) (hd1 : 1 ≤ d)
    (hd : d ≤ 28) :
    dateOfOrdinal (daysBeforeYear y + (31 + (d - 1))) = (y, 2, d) := by
  have hdim : 28 ≤ daysInMonthL (isLeap y) 2 := by
    cases isLeap y <;> simp [daysInMonthL]
  rw [dateOfOrdinal_eq y (31 + (d - 1)) hy (by have := daysInYear_ge y; omega)]
  rw [monthOfDoyA_feb (isLeap y) (31 + (d - 1)) (by omega) (by omega)]
  rw [show 31 + (d - 1) - 31 + 1 = d from by omega]

/-! ## C2 -/

/-- One `monthly` scan step over a month where day 31 does not exist (the
`except ValueError: month += 1` path). -/
theorem monthlyLoop_skip {day h mi : Int} {t y m f : Nat}
    (hm : m + 1 ≤ 12) (hpd : pyDatetime y (m : Int) day h mi = none) :
    monthlyLoop day h mi t y m (f + 1) = monthlyLoop day h mi t y (m + 1) f := by
  conv_lhs => unfold monthlyLoop
  dsimp only
  rw [hpd]
  dsimp only
  rw [if_neg (by omega)]

/-- One `monthly` scan step that finds a valid candidate strictly after the
reference instant and returns it. -/
theorem monthlyLoop_hit {day h mi : Int} {t y m f c : Nat}
    (hpd : pyDatetime y (m : Int) day h mi = some c) (hgt : ¬ (c ≤ t)) :
    monthlyLoop day h mi t y m (f + 1) = .ok (some c) := by
  conv_lhs => unfold monthlyLoop
  dsimp only
  rw [hpd]
  dsimp only
  rw [if_neg hgt]

set_option maxHeartbeats 2000000 in
set_option maxRecDepth 10000 in
/-- C2 (counterexample): with `after` = 2025-01-15 10:00 and payload
day = 31, `compute_next_occurrence("monthly", ...)` returns January 31 of the
same year — the current month is the first valid month — not March 31 as the
claim states. -/
theorem monthly_day31_jan15_counterexample :
    compute_next_occurrence (.monthly 31) 10 0
        (toOrd 2025 1 15 * 86400 + 36000) =
      .ok (some (toOrd 2025 1 31 * 86400 + 36000)) ∧
    toOrd 2025 1 31 * 86400 + 36000 ≠ toOrd 2025 3 31 * 86400 + 36000 :=
  ⟨by rfl, by decide⟩

set_option maxHeartbeats 1000000 in
/-- C2 (amended): for `monthly` with payload day = 31, from any reference
instant on January 15 the scan returns January 31 of the same year at the
given time of day (the current month is the first month where day 31 exists
and lies strictly after `after`); months where the day does not exist are
skipped, never clamped — from any reference instant on February 1, February
is skipped and March 31 of the same year is returned. -/
theorem monthly_day31_first_valid_month (y : Nat) (h mi : Int) (s s2 : Nat)
    (hy1 : 1 ≤ y) (hy2 : y ≤ 9999) (hh0 : 0 ≤ h) (hh : h ≤ 23)
    (hmi0 : 0 ≤ mi) (hmi : mi ≤ 59) (hs : s < 86400) (hs2 : s2 < 86400) :
    compute_next_occurrence (.monthly 31) h mi (toOrd y 1 15 * 86400 + s) =
      .ok (some (toOrd y 1 31 * 86400 + h.toNat * 3600 + mi.toNat * 60)) ∧
    compute_next_occurrence (.monthly 31) h mi (toOrd y 2 1 * 86400 + s2) =
      .ok (some (toOrd y 3 31 * 86400 + h.toNat * 3600 + mi.toNat * 60)) := by
  have e15 : toOrd y 1 15 = daysBeforeYear y + 14 := rfl
  have e31 : toOrd y 1 31 = daysBeforeYear y + 30 := rfl
  have e21 : toOrd y 2 1 = daysBeforeYear y + 31 := rfl
  have hdby : daysBeforeYear y ≤ 3651694 := by
    have h9999 : daysBeforeYear 9999 = 3651694 := by rfl
    have := daysBeforeYear_mono hy1 hy2
    omega
  have hmaxlit : maxOrd = 3652058 := by rfl
  have hdim1 : daysInMonth y 1 = 31 := rfl
  have hdim3 : daysInMonth y 3 = 31 := rfl
  have hdim2 : daysInMonth y 2 ≤ 29 := by
    unfold daysInMonth daysInMonthL
    cases isLeap y <;> simp
  have hpd1 : pyDatetime y ((1 : Nat) : Int) 31 h mi =
      some (toOrd y 1 31 * 86400 + h.toNat * 3600 + mi.toNat * 60) := by
    unfold pyDatetime
    rw [if_pos]
    · rfl
    · refine ⟨hy1, hy2, by norm_num, by norm_num, by norm_num, ?_,
        hh0, hh, hmi0, hmi⟩
      rw [show ((1 : Nat) : Int).toNat = 1 from rfl, hdim1]
      norm_num
  have hpd2 : pyDatetime y ((2 : Nat) : Int) 31 h mi = none := by
    unfold pyDatetime
    rw [if_neg]
    intro hc
    have hd := hc.2.2.2.2.2.1
    rw [show ((2 : Nat) : Int).toNat = 2 from rfl] at hd
    omega
  have hpd3 : pyDatetime y ((3 : Nat) : Int) 31 h mi =
      some (toOrd y 3 31 * 86400 + h.toNat * 3600 + mi.toNat * 60) := by
    unfold pyDatetime
    rw [if_pos]
    · rfl
    · refine ⟨hy1, hy2, by norm_num, by norm_num, by norm_num, ?_,
        hh0, hh, hmi0, hmi⟩
      rw [show ((3 : Nat) : Int).toNat = 3 from rfl, hdim3]
      norm_num
  constructor
  · have hguard : ¬ (maxOrd < (toOrd y 1 15 * 86400 + s + 60) / 86400) := by
      rw [hmaxlit, e15]
      omega
    have hdiv : (toOrd y 1 15 * 86400 + s + 60) / 86400 =
        daysBeforeYear y + 14 + (s + 60) / 86400 := by
      rw [e15]
      omega
    have hproj :
        (dateOfOrdinal ((toOrd y 1 15 * 86400 + s + 60) / 86400)).1 = y ∧
        (dateOfOrdinal ((toOrd y 1 15 * 86400 + s + 60) / 86400)).2.1 = 1 := by
      by_cases hsb : s + 60 < 86400
      · rw [hdiv, show (s + 60) / 86400 = 0 from by omega,
          show daysBeforeYear y + 14 + 0 =
            daysBeforeYear y + (15 - 1) from by omega,
          dateOfOrdinal_jan y 15 hy1 (by omega) (by omega)]
        exact ⟨rfl, rfl⟩
      · rw [hdiv, show (s + 60) / 86400 = 1 from by omega,
          show daysBeforeYear y + 14 + 1 =
            daysBeforeYear y + (16 - 1) from by omega,
          dateOfOrdinal_jan y 16 hy1 (by omega) (by omega)]
        exact ⟨rfl, rfl⟩
    have hnle : ¬ (toOrd y 1 31 * 86400 + h.toNat * 3600 + mi.toNat * 60 ≤
        toOrd y 1 15 * 86400 + s) := by
      rw [e15, e31]
      omega
    unfold compute_next_occurrence
    dsimp only
    rw [if_neg hguard]
    rw [hproj.1, hproj.2]
    rw [show (24 : Nat) = 23 + 1 from rfl, monthlyLoop_hit hpd1 hnle]
  · have hguard2 : ¬ (maxOrd < (toOrd y 2 1 * 86400 + s2 + 60) / 86400) := by
      rw [hmaxlit, e21]
      omega
    have hdiv2 : (toOrd y 2 1 * 86400 + s2 + 60) / 86400 =
        daysBeforeYear y + 31 + (s2 + 60) / 86400 := by
      rw [e21]
      omega
    have hproj2 :
        (dateOfOrdinal ((toOrd y 2 1 * 86400 + s2 + 60) / 86400)).1 = y ∧
        (dateOfOrdinal ((toOrd y 2 1 * 86400 + s2 + 60) / 86400)).2.1 = 2 := by
      by_cases hsb : s2 + 60 < 86400
      · rw [hdiv2, show (s2 + 60) / 86400 = 0 from by omega,
          show daysBeforeYear y + 31 + 0 =
            daysBeforeYear y + (31 + (1 - 1)) from by omega,
          dateOfOrdinal_feb y 1 hy1 (by omega) (by omega)]
        exact ⟨rfl, rfl⟩
      · rw [hdiv2, show (s2 + 60) / 86400 = 1 from by omega,
          show daysBeforeYear y + 31 + 1 =
            daysBeforeYear y + (31 + (2 - 1)) from by omega,
          dateOfOrdinal_feb y 2 hy1 (by omega) (by omega)]
        exact ⟨rfl, rfl⟩
    have hdbm3 : daysBeforeMonth (isLeap y) 3 ≤ 60 ∧
        59 ≤ daysBeforeMonth (isLeap y) 3 := by
      cases isLeap y <;> simp [daysBeforeMonth, daysInMonthL]
    have e331 : toOrd y 3 31 =
        daysBeforeYear y + daysBeforeMonth (isLeap y) 3 + 30 := rfl
    have hnle2 : ¬ (toOrd y 3 31 * 86400 + h.toNat * 3600 + mi.toNat * 60 ≤
        toOrd y 2 1 * 86400 + s2) := by
      rw [e21, e331]
      omega
    unfold compute_next_occurrence
    dsimp only
    rw [if_neg hguard2]
    rw [hproj2.1, hproj2.2]
    rw [show (24 : Nat) = 23 + 1 from rfl,
      monthlyLoop_skip (by norm_num) hpd2,
      show (23 : Nat) = 22 + 1 from rfl,
      monthlyLoop_hit hpd3 hnle2]

set_option maxHeartbeats 2000000 in
/-- Witness for the amended C2 at year 2025, 10:00. -/
theorem monthly_day31_first_valid_month_witness :
    compute_next_occurrence (.monthly 31) 10 0
        (toOrd 2025 1 15 * 86400 + 36000) =
      .ok (some (toOrd 2025 1 31 * 86400 +
        (10 : Int).toNat * 3600 + (0 : Int).toNat * 60)) ∧
    compute_next_occurrence (.monthly 31) 10 0 (toOrd 2025 2 1 * 86400 + 0) =
      .ok (some (toOrd 2025 3 31 * 86400 +
        (10 : Int).toNat * 3600 + (0 : Int).toNat * 60)) :=
  monthly_day31_first_valid_month 2025 10 0 36000 0 (by norm_num) (by norm_num)
    (by norm_num) (by norm_num) (by norm_num) (by norm_num) (by norm_num)
    (by norm_num)

/-! ## C3 -/

/-- Explicit result of `delete_single_reminder_row` on a well-formed store
when the row exists in the requesting chat. -/
theorem delete_single_reminder_row_eq (rid : Nat) (chat : Int) (db : DB)
    (r : ReminderRow) (hnd : (db.reminders.map (·.id)).Nodup)
    (hmem : r ∈ db.reminders) (hid : r.id = rid) (hchat : r.chat_id = chat) :
    delete_single_reminder_row rid chat db =
      (1, { db with reminders := db.reminders.erase r }) := by
  have hkeep := filter_keep_eq_erase db.reminders r rid chat hnd hmem hid hchat
  have hlen : (db.reminders.erase r).length = db.reminders.length - 1 :=
    List.length_erase_of_mem hmem
  have hpos : 0 < db.reminders.length :=
    List.length_pos.mpr (List.ne_nil_of_mem hmem)
  unfold delete_single_reminder_row
  dsimp only
  rw [hkeep, Prod.mk.injEq]
  exact ⟨by omega, rfl⟩

set_option maxHeartbeats 1000000 in
/-- C3: deleting one occurrence of an active recurring series through
`delete_recurring_one_instance_and_reschedule` materializes exactly one new
pending occurrence for the same series (the auto-created next instance), and
`restore_deleted_snapshot` on that deletion's snapshot removes the
auto-created occurrence and re-inserts the original reminder at its original
due time, leaving the series with exactly one pending occurrence — no
duplicates, no gaps. -/
theorem delete_one_instance_and_restore (rid : Nat) (chat : Int) (db : DB)
    (r : ReminderRow) (tid : Nat) (tpl : TemplateRow) (nxt : Nat)
    (hwf : db.wf)
    (hr : get_reminder_row rid db = some r)
    (hchat : r.chat_id = chat)
    (htid : r.template_id = some tid)
    (htpl : get_recurring_template_row tid db = some tpl)
    (hact : tpl.active = true)
    (_hpend : r.delivered = false)
    (huniq : ∀ x ∈ db.reminders, x.template_id = some tid →
      x.delivered = false → x = r)
    (hnext : compute_next_occurrence tpl.pattern tpl.time_hour tpl.time_minute
      r.remind_at = .ok (some nxt)) :
    (delete_recurring_one_instance_and_reschedule rid chat db).1 =
      .ok (some (oneInstanceSnap r tpl (some db.next_id))) ∧
    pendingOfSeries
        (delete_recurring_one_instance_and_reschedule rid chat db).2 tid =
      [occRow db.next_id r nxt tid] ∧
    (restore_deleted_snapshot (oneInstanceSnap r tpl (some db.next_id))
        (delete_recurring_one_instance_and_reschedule rid chat db).2).1 =
      some (.single (db.next_id + 1)) ∧
    pendingOfSeries
        (restore_deleted_snapshot (oneInstanceSnap r tpl (some db.next_id))
          (delete_recurring_one_instance_and_reschedule rid chat db).2).2 tid =
      [occRow (db.next_id + 1) r r.remind_at tid] ∧
    ((restore_deleted_snapshot (oneInstanceSnap r tpl (some db.next_id))
        (delete_recurring_one_instance_and_reschedule rid chat
          db).2).2.reminders.filter (fun x => x.id == db.next_id)) = [] := by
  obtain ⟨hmem, hid⟩ := get_reminder_row_spec hr
  obtain ⟨htplmem, htplid⟩ := get_recurring_template_row_spec htpl
  obtain ⟨hnd, hlt, hposid⟩ := hwf
  have hndl : db.reminders.Nodup := hnd.of_map
  have hdrow := delete_single_reminder_row_eq rid chat db r hnd hmem hid hchat
  have hdel : delete_recurring_one_instance_and_reschedule rid chat db =
      (.ok (some (oneInstanceSnap r tpl (some db.next_id))),
       { db with
          reminders := db.reminders.erase r ++ [occRow db.next_id r nxt tid]
          next_id := db.next_id + 1 }) := by
    unfold delete_recurring_one_instance_and_reschedule
    rw [hr]
    dsimp only
    rw [if_neg (by simp [hchat]), htid]
    dsimp only
    rw [htpl]
    dsimp only
    rw [if_neg (by simp [hact]), hdrow]
    dsimp only
    rw [if_neg (by norm_num), hnext]
    dsimp only
    unfold add_reminder oneInstanceSnap occRow
    dsimp only
    rw [htplid]
  have hpe : (db.reminders.erase r).filter
      (fun x => x.template_id == some tid && !x.delivered) = [] := by
    apply List.filter_eq_nil_iff.mpr
    intro x hx
    have hmemx := List.mem_of_mem_erase hx
    intro hpx
    simp only [Bool.and_eq_true, beq_iff_eq, Bool.not_eq_true'] at hpx
    have hxr := huniq x hmemx hpx.1 hpx.2
    have hrerase : r ∈ db.reminders.erase r := hxr ▸ hx
    exact ((List.Nodup.mem_erase_iff hndl).mp hrerase).1 rfl
  have hkeep2 : ((db.reminders.erase r ++
      [occRow db.next_id r nxt tid] : List ReminderRow)).filter
      (fun x => !(x.id == db.next_id && x.chat_id == r.chat_id)) =
      db.reminders.erase r := by
    rw [List.filter_append]
    have h1 : (db.reminders.erase r).filter
        (fun x => !(x.id == db.next_id && x.chat_id == r.chat_id)) =
        db.reminders.erase r := by
      apply List.filter_eq_self.mpr
      intro x hx
      have hxlt : x.id < db.next_id := hlt x (List.mem_of_mem_erase hx)
      simp [Nat.ne_of_lt hxlt]
    have h2 : ([occRow db.next_id r nxt tid] : List ReminderRow).filter
        (fun x => !(x.id == db.next_id && x.chat_id == r.chat_id)) = [] := by
      simp [occRow]
    rw [h1, h2, List.append_nil]
  have hres : restore_deleted_snapshot (oneInstanceSnap r tpl (some db.next_id))
      ({ db with
          reminders := db.reminders.erase r ++ [occRow db.next_id r nxt tid]
          next_id := db.next_id + 1 } : DB) =
      (some (.single (db.next_id + 1)),
       { db with
          reminders := db.reminders.erase r ++
            [occRow (db.next_id + 1) r r.remind_at tid]
          templates := db.templates.map
            (fun t => if t.id == tid then { t with active := true } else t)
          next_id := db.next_id + 2 }) := by
    unfold restore_deleted_snapshot oneInstanceSnap
    dsimp only
    rw [if_pos (by omega)]
    unfold delete_single_reminder_row
    dsimp only
    rw [hkeep2]
    unfold activate_recurring_template add_reminder occRow
    dsimp only
    rw [htplid]
  refine ⟨?_, ?_, ?_, ?_, ?_⟩
  · rw [hdel]
  · rw [hdel]
    unfold pendingOfSeries
    dsimp only
    rw [List.filter_append, hpe]
    simp [occRow]
  · rw [hdel]
    dsimp only
    rw [hres]
  · rw [hdel]
    dsimp only
    rw [hres]
    unfold pendingOfSeries
    dsimp only
    rw [List.filter_append, hpe]
    simp [occRow]
  · rw [hdel]
    dsimp only
    rw [hres]
    dsimp only
    rw [List.filter_append]
    have h1 : (db.reminders.erase r).filter
        (fun x => x.id == db.next_id) = [] := by
      apply List.filter_eq_nil_iff.mpr
      intro x hx
      have hxlt : x.id < db.next_id := hlt x (List.mem_of_mem_erase hx)
      simp [Nat.ne_of_lt hxlt]
    rw [h1]
    simp [occRow]

/-- Witness for C3 at a concrete one-row store with an active daily series. -/
theorem delete_one_instance_and_restore_witness :
    (delete_recurring_one_instance_and_reschedule 1 2 exDB).1 =
      .ok (some (oneInstanceSnap exReminder exTemplate (some exDB.next_id))) ∧
    pendingOfSeries
        (delete_recurring_one_instance_and_reschedule 1 2 exDB).2 7 =
      [occRow exDB.next_id exReminder
        (toOrd 2025 11 28 * 86400 + 36000 + 86400) 7] ∧
    (restore_deleted_snapshot (oneInstanceSnap exReminder exTemplate
        (some exDB.next_id))
        (delete_recurring_one_instance_and_reschedule 1 2 exDB).2).1 =
      some (.single (exDB.next_id + 1)) ∧
    pendingOfSeries
        (restore_deleted_snapshot (oneInstanceSnap exReminder exTemplate
          (some exDB.next_id))
          (delete_recurring_one_instance_and_reschedule 1 2 exDB).2).2 7 =
      [occRow (exDB.next_id + 1) exReminder exReminder.remind_at 7] ∧
    ((restore_deleted_snapshot (oneInstanceSnap exReminder exTemplate
        (some exDB.next_id))
        (delete_recurring_one_instance_and_reschedule 1 2
          exDB).2).2.reminders.filter (fun x => x.id == exDB.next_id)) = [] :=
  delete_one_instance_and_restore 1 2 exDB exReminder 7 exTemplate
    (toOrd 2025 11 28 * 86400 + 36000 + 86400)
    ⟨by decide, by decide, by decide⟩ rfl rfl rfl rfl rfl rfl (by decide) rfl

/-! ## C4 -/

/-- The series-restore loop appends one fresh pending row per captured row,
with consecutive fresh ids, and touches nothing else. -/
theorem restore_series_loop_eq (tplId : Nat) :
    ∀ (rs : List ReminderRow) (acc : List Nat) (db0 : DB),
      (restore_series_loop tplId rs acc db0).2 =
        { db0 with
           reminders := db0.reminders ++ freshRows tplId db0.next_id rs
           next_id := db0.next_id + rs.length } := by
  intro rs
  induction rs with
  | nil =>
    intro acc db0
    unfold restore_series_loop
    cases db0
    simp [freshRows]
  | cons x xs ih =>
    intro acc db0
    unfold restore_series_loop
    dsimp only
    rw [ih]
    unfold add_reminder
    dsimp only
    congr 1
    · rw [show freshRows tplId db0.next_id (x :: xs) =
        occRow db0.next_id x x.remind_at tplId ::
          freshRows tplId (db0.next_id + 1) xs from rfl]
      rw [List.append_assoc]
      rfl
    · rw [List.length_cons]
      omega

set_option maxHeartbeats 1000000 in
/-- C4: deleting an entire series through
`delete_recurring_series_with_snapshot` removes every reminder referencing
the template (in particular every pending one) and sets the template
inactive; `restore_deleted_snapshot` on the resulting snapshot re-activates
the template and re-creates every captured reminder of the series — each at
its original `remind_at`, undelivered, pointing at the same template id. -/
theorem delete_series_and_restore (tid : Nat) (chat : Int) (db : DB)
    (tpl : TemplateRow)
    (htpl : get_recurring_template_row tid db = some tpl)
    (hchat : tpl.chat_id = chat)
    (hinv : ∀ x ∈ db.reminders, x.template_id = some tid → x.chat_id = chat) :
    (delete_recurring_series_with_snapshot tid chat db).1 =
      some (seriesSnap tpl (get_reminders_by_template_id tid chat db)) ∧
    ((delete_recurring_series_with_snapshot tid chat db).2.reminders.filter
      (fun x => x.template_id == some tid)) = [] ∧
    templateActive (delete_recurring_series_with_snapshot tid chat db).2 tid =
      some false ∧
    templateActive (restore_deleted_snapshot
        (seriesSnap tpl (get_reminders_by_template_id tid chat db))
        (delete_recurring_series_with_snapshot tid chat db).2).2 tid =
      some true ∧
    (restore_deleted_snapshot
        (seriesSnap tpl (get_reminders_by_template_id tid chat db))
        (delete_recurring_series_with_snapshot tid chat db).2).2.reminders =
      (delete_recurring_series_with_snapshot tid chat db).2.reminders ++
        freshRows tid
          (delete_recurring_series_with_snapshot tid chat db).2.next_id
          (get_reminders_by_template_id tid chat db) := by
  obtain ⟨htplmem, htplid⟩ := get_recurring_template_row_spec htpl
  have hfind : db.templates.find? (fun t => t.id == tid) = some tpl := htpl
  have hdel : delete_recurring_series_with_snapshot tid chat db =
      (some (seriesSnap tpl (get_reminders_by_template_id tid chat db)),
       { db with
          reminders := db.reminders.filter
            (fun x => !(x.chat_id == chat && x.template_id == some tid))
          templates := db.templates.map
            (fun t => if t.id == tid then { t with active := false }
              else t) }) := by
    by_cases hrs : get_reminders_by_template_id tid chat db = []
    · have hfull : db.reminders.filter
          (fun x => !(x.chat_id == chat && x.template_id == some tid)) =
          db.reminders := by
        apply List.filter_eq_self.mpr
        intro x hx
        by_contra hcx
        simp only [Bool.not_eq_true, Bool.not_eq_false'] at hcx
        have hxin : x ∈ get_reminders_by_template_id tid chat db := by
          unfold get_reminders_by_template_id
          exact List.mem_filter.mpr ⟨hx, hcx⟩
        rw [hrs] at hxin
        cases hxin
      unfold delete_recurring_series_with_snapshot
      rw [htpl]
      dsimp only
      rw [if_neg (by simp [hchat]), if_pos hrs, hrs, hfull]
      unfold deactivate_recurring_template seriesSnap
      dsimp only
    · have hlenrs : 0 < (get_reminders_by_template_id tid chat db).length :=
        List.length_pos.mpr hrs
      have hpart := length_filter_add_length_not
        (fun x => (x.chat_id == chat && x.template_id == some tid))
        db.reminders
      have hcnt : ¬(db.reminders.length - (db.reminders.filter
          (fun x => !(x.chat_id == chat &&
            x.template_id == some tid))).length = 0) := by
        unfold get_reminders_by_template_id at hlenrs
        omega
      unfold delete_recurring_series_with_snapshot
      rw [htpl]
      dsimp only
      rw [if_neg (by simp [hchat]), if_neg hrs]
      unfold delete_recurring_series
      dsimp only
      rw [if_neg hcnt]
      unfold deactivate_recurring_template seriesSnap
      dsimp only
  refine ⟨?_, ?_, ?_, ?_, ?_⟩
  · rw [hdel]
  · rw [hdel]
    dsimp only
    apply List.filter_eq_nil_iff.mpr
    intro x hx
    obtain ⟨hxmem, hxkeep⟩ := List.mem_filter.mp hx
    intro hxtid
    rw [beq_iff_eq] at hxtid
    have hxchat := hinv x hxmem hxtid
    rw [hxchat, hxtid] at hxkeep
    simp at hxkeep
  · rw [hdel]
    unfold templateActive
    dsimp only
    rw [find?_map_update (fun t : TemplateRow => t.id)
      (fun t : TemplateRow => { t with active := false }) (fun _ => rfl) tid
      db.templates, hfind]
    rfl
  · rw [hdel]
    unfold restore_deleted_snapshot seriesSnap
    dsimp only
    rw [restore_series_loop_eq]
    unfold templateActive activate_recurring_template
    dsimp only
    rw [htplid]
    rw [find?_map_update (fun t : TemplateRow => t.id)
      (fun t : TemplateRow => { t with active := true }) (fun _ => rfl) tid]
    rw [find?_map_update (fun t : TemplateRow => t.id)
      (fun t : TemplateRow => { t with active := false }) (fun _ => rfl) tid
      db.templates, hfind]
    rfl
  · rw [hdel]
    unfold restore_deleted_snapshot seriesSnap
    dsimp only
    rw [restore_series_loop_eq]
    unfold activate_recurring_template
    dsimp only
    rw [htplid]

/-- Witness for C4 at a concrete one-row store with an active daily series. -/
theorem delete_series_and_restore_witness :
    (delete_recurring_series_with_snapshot 7 2 exDB).1 =
      some (seriesSnap exTemplate (get_reminders_by_template_id 7 2 exDB)) ∧
    ((delete_recurring_series_with_snapshot 7 2 exDB).2.reminders.filter
      (fun x => x.template_id == some 7)) = [] ∧
    templateActive (delete_recurring_series_with_snapshot 7 2 exDB).2 7 =
      some false ∧
    templateActive (restore_deleted_snapshot
        (seriesSnap exTemplate (get_reminders_by_template_id 7 2 exDB))
        (delete_recurring_series_with_snapshot 7 2 exDB).2).2 7 =
      some true ∧
    (restore_deleted_snapshot
        (seriesSnap exTemplate (get_reminders_by_template_id 7 2 exDB))
        (delete_recurring_series_with_snapshot 7 2 exDB).2).2.reminders =
      (delete_recurring_series_with_snapshot 7 2 exDB).2.reminders ++
        freshRows 7 (delete_recurring_series_with_snapshot 7 2 exDB).2.next_id
          (get_reminders_by_template_id 7 2 exDB) :=
  delete_series_and_restore 7 2 exDB exTemplate rfl rfl (by decide)

/-! ## C8 -/

theorem dash_not_ws {c : Char} (h : dashChar c = true) : wsChar c = false := by
  unfold dashChar at h
  simp only [Bool.or_eq_true, beq_iff_eq] at h
  rcases h with (h | h) | h <;> subst h <;> decide

theorem ws_not_dash {c : Char} (h : wsChar c = true) : dashChar c = false := by
  by_contra hd
  have hd' : dashChar c = true := Bool.ne_false_iff.mp hd
  rw [dash_not_ws hd'] at h
  cases h

theorem dropWhile_head_false {p : Char → Bool} :
    ∀ (l : List Char) (a : Char) (as : List Char),
      l.dropWhile p = a :: as → p a = false := by
  intro l
  induction l with
  | nil => intro a as h; cases h
  | cons c tl ih =>
    intro a as h
    by_cases hc : p c = true
    · rw [List.dropWhile_cons_of_pos hc] at h
      exact ih a as h
    · rw [List.dropWhile_cons_of_neg (by simpa using hc)] at h
      injection h with h1 h2
      subst h1
      simpa using hc

theorem rstripL_prefix (x : List Char) :
    ∃ t, x = rstripL x ++ t := by
  refine ⟨(x.reverse.takeWhile wsChar).reverse, ?_⟩
  unfold rstripL
  conv_lhs => rw [← List.reverse_reverse x,
    ← List.takeWhile_append_dropWhile (p := wsChar) (l := x.reverse)]
  rw [List.reverse_append]

theorem rstripL_append_ws (l : List Char) (c : Char) (hc : wsChar c = true) :
    rstripL (l ++ [c]) = rstripL l := by
  unfold rstripL
  rw [List.reverse_append, List.reverse_singleton, List.singleton_append,
    List.dropWhile_cons_of_pos hc]

theorem rstripL_ends_not_ws (l : List Char) (c : Char)
    (hc : wsChar c = false) :
    rstripL (l ++ [c]) = l ++ [c] := by
  unfold rstripL
  rw [List.reverse_append, List.reverse_singleton, List.singleton_append,
    List.dropWhile_cons_of_neg (by simpa using hc), List.reverse_cons,
    List.reverse_reverse]

theorem dropWhile_stripL (l : List Char) :
    (stripL l).dropWhile wsChar = stripL l := by
  unfold stripL
  cases hres : rstripL (lstripL l) with
  | nil => rfl
  | cons a as =>
    obtain ⟨t, ht⟩ := rstripL_prefix (lstripL l)
    rw [hres] at ht
    have hlt : l.dropWhile wsChar = a :: (as ++ t) := by
      have : lstripL l = a :: (as ++ t) := by
        rw [ht]
        rfl
      simpa [lstripL] using this
    have hhead : wsChar a = false := dropWhile_head_false l a (as ++ t) hlt
    rw [List.dropWhile_cons_of_neg (by simpa using hhead)]

theorem nlFree_append_false (l m : List Char) (h : nlFree l = false) :
    nlFree (l ++ m) = false := by
  unfold nlFree at h ⊢
  rw [List.all_append, h, Bool.false_and]

theorem nlFree_rstrip_false {l : List Char} (h : nlFree (rstripL l) = false) :
    nlFree l = false := by
  obtain ⟨t, ht⟩ := rstripL_prefix l
  rw [ht]
  exact nlFree_append_false _ t h

theorem trySplitAt_ws_cons (pre : List Char) {c : Char} (tl : List Char)
    (hc : wsChar c = true) :
    trySplitAt pre (c :: tl) = trySplitAt pre tl := by
  unfold trySplitAt
  rw [List.dropWhile_cons_of_pos hc]

theorem trySplitAt_some {pre rest : List Char} {r : List Char × List Char}
    (h : trySplitAt pre rest = some r) :
    ∃ d dl t, rest.dropWhile wsChar = d :: dl ∧ dashChar d = true ∧
      reTail dl = some t ∧ r = (pre, t) := by
  unfold trySplitAt at h
  cases hscr : rest.dropWhile wsChar with
  | nil => rw [hscr] at h; cases h
  | cons d dl =>
    rw [hscr] at h
    dsimp only at h
    by_cases hd : dashChar d = true
    · rw [if_pos hd] at h
      cases ht : reTail dl with
      | none => rw [ht] at h; cases h
      | some t =>
        rw [ht] at h
        refine ⟨d, dl, t, rfl, hd, ht, ?_⟩
        injection h with h1
        exact h1.symm
    · rw [if_neg hd] at h; cases h

theorem trySplitAt_mk (pre : List Char) {rest : List Char} {d : Char}
    {dl t : List Char} (hscr : rest.dropWhile wsChar = d :: dl)
    (hd : dashChar d = true) (ht : reTail dl = some t) :
    trySplitAt pre rest = some (pre, t) := by
  unfold trySplitAt
  rw [hscr]
  dsimp only
  rw [if_pos hd, ht]

theorem trySplitAt_none_reTail (pre : List Char) {rest : List Char}
    {d : Char} {dl : List Char} (hscr : rest.dropWhile wsChar = d :: dl)
    (hd : dashChar d = true) (hnone : trySplitAt pre rest = none) :
    reTail dl = none := by
  cases ht : reTail dl with
  | none => rfl
  | some t =>
    rw [trySplitAt_mk pre hscr hd ht] at hnone
    cases hnone

/-- Once the expression side holds a newline that is not mere trailing
whitespace, no later dash can match: regex `.` cannot carry `expr` across
that newline, and `rstripL` never removes it again. -/
theorem splitFirstDashAux_stuck :
    ∀ (rest pre : List Char), nlFree (rstripL pre) = false →
      splitFirstDashAux pre rest = none := by
  intro rest
  induction rest with
  | nil => intro pre h; rfl
  | cons c tl ih =>
    intro pre h
    unfold splitFirstDashAux
    rw [if_neg (by simp [h])]
    apply ih
    by_cases hw : wsChar c = true
    · rw [rstripL_append_ws pre c hw]
      exact h
    · rw [rstripL_ends_not_ws pre c (by simpa using hw)]
      exact nlFree_append_false _ _ (nlFree_rstrip_false h)

/-- After the scan has died on a newline, the first-dash walk finds nothing
either: every dash reachable from before the newline through whitespace was
already tried (`trySplitAt` skips whitespace, newlines included), and any
dash past a later non-whitespace character has the newline stuck before
it. -/
theorem splitFirstDashAux_after_newline :
    ∀ (rest pre mid : List Char), mid.all wsChar = true →
      trySplitAt pre rest = none →
      splitFirstDashAux (pre ++ '\n' :: mid) rest = none := by
  intro rest
  induction rest with
  | nil => intro pre mid hmid hnone; rfl
  | cons c tl ih =>
    intro pre mid hmid hnone
    by_cases hw : wsChar c = true
    · unfold splitFirstDashAux
      rw [if_neg (by simp [ws_not_dash hw])]
      have hassoc : (pre ++ '\n' :: mid) ++ [c] = pre ++ '\n' :: (mid ++ [c]) := by
        simp
      rw [hassoc]
      apply ih pre (mid ++ [c])
      · simp [List.all_append, hmid, hw]
      · rw [← trySplitAt_ws_cons pre tl hw]
        exact hnone
    · have hwf : wsChar c = false := by simpa using hw
      have hstuck : nlFree (rstripL ((pre ++ '\n' :: mid) ++ [c])) = false := by
        rw [rstripL_ends_not_ws _ c hwf]
        unfold nlFree
        simp [List.all_append]
      by_cases hd : dashChar c = true
      · have hscr : (c :: tl).dropWhile wsChar = c :: tl := by
          rw [List.dropWhile_cons_of_neg (by simpa using hwf)]
        have hrt : reTail tl = none :=
          trySplitAt_none_reTail pre hscr hd hnone
        unfold splitFirstDashAux
        by_cases hcond : (dashChar c &&
            !(rstripL (pre ++ '\n' :: mid)).isEmpty &&
            nlFree (rstripL (pre ++ '\n' :: mid))) = true
        · rw [if_pos hcond, hrt]
          exact splitFirstDashAux_stuck tl _ hstuck
        · rw [if_neg hcond]
          exact splitFirstDashAux_stuck tl _ hstuck
      · unfold splitFirstDashAux
        rw [if_neg (by simp [hd])]
        exact splitFirstDashAux_stuck tl _ hstuck

/-- If the regex tail matches right after `expr = pre`, and `pre` minus its
trailing whitespace is nonempty and newline-free, then the first-dash
reference search started at `pre` finds the same dash and returns the same
split (with `pre`'s trailing whitespace stripped). -/
theorem splitFirstDashAux_of_trySplitAt :
    ∀ (rest pre text : List Char),
      trySplitAt pre rest = some (pre, text) →
      rstripL pre ≠ [] → nlFree (rstripL pre) = true →
      splitFirstDashAux pre rest = some (rstripL pre, text) := by
  intro rest
  induction rest with
  | nil =>
    intro pre text h hpre hnl
    obtain ⟨d, dl, t, hscr, -, -, -⟩ := trySplitAt_some h
    cases hscr
  | cons c tl ih =>
    intro pre text h hpre hnl
    obtain ⟨d, dl, t, hscr, hd, hrt, hr⟩ := trySplitAt_some h
    have htext : text = t := by
      have := congrArg Prod.snd hr
      simpa using this
    rw [← htext] at hrt
    by_cases hw : wsChar c = true
    · rw [List.dropWhile_cons_of_pos hw] at hscr
      have h2 : trySplitAt (pre ++ [c]) tl = some (pre ++ [c], text) :=
        trySplitAt_mk (pre ++ [c]) hscr hd hrt
      unfold splitFirstDashAux
      rw [if_neg (by simp [ws_not_dash hw])]
      rw [ih (pre ++ [c]) text h2
        (by rw [rstripL_append_ws pre c hw]; exact hpre)
        (by rw [rstripL_append_ws pre c hw]; exact hnl),
        rstripL_append_ws pre c hw]
    · rw [List.dropWhile_cons_of_neg (by simpa using hw)] at hscr
      injection hscr with h1 h2
      subst h1
      subst h2
      unfold splitFirstDashAux
      rw [if_pos (by simp [hd, hnl, List.isEmpty_iff, hpre]), hrt]

theorem dropWhile_length_le (p : Char → Bool) :
    ∀ l : List Char, (l.dropWhile p).length ≤ l.length := by
  intro l
  induction l with
  | nil => simp
  | cons c tl ih =>
    by_cases hc : p c = true
    · rw [List.dropWhile_cons_of_pos hc]
      exact Nat.le_succ_of_le ih
    · rw [List.dropWhile_cons_of_neg (by simpa using hc)]

/-- The scan of the lazy regex agrees with the first-dash reference search,
from any state the scan can actually be in: the regex tail never matched
earlier (or we are at the start of a stripped string), and the expression
accumulated so far crossed no newline. -/
theorem splitScan_eq_aux :
    ∀ (rest pre : List Char),
      (trySplitAt pre rest = none ∨
        (pre = [] ∧ rest.dropWhile wsChar = rest)) →
      nlFree pre = true →
      splitScan pre rest = splitFirstDashAux pre rest := by
  intro rest
  induction rest with
  | nil => intro pre hinv hnl; rfl
  | cons c tl ih =>
    intro pre hinv hnl
    by_cases hNL : c = '\n'
    · subst hNL
      have hscan : splitScan pre ('\n' :: tl) = none := by
        conv_lhs => unfold splitScan
        rw [if_pos rfl]
      rw [hscan]
      have hwsn : wsChar '\n' = true := by decide
      rcases hinv with hnone | ⟨hpre, hdw⟩
      · have hnone2 : trySplitAt pre tl = none := by
          rw [← trySplitAt_ws_cons pre tl hwsn]
          exact hnone
        have hwalk := splitFirstDashAux_after_newline tl pre [] rfl hnone2
        symm
        conv_lhs => unfold splitFirstDashAux
        rw [if_neg (by simp [show dashChar '\n' = false by decide])]
        exact hwalk
      · exfalso
        rw [List.dropWhile_cons_of_pos hwsn] at hdw
        have hlen := congrArg List.length hdw
        have hle := dropWhile_length_le wsChar tl
        simp at hlen
        omega
    · cases htry : trySplitAt (pre ++ [c]) tl with
      | some r =>
        obtain ⟨d, dl, t, hscr, hd, hrt, hr⟩ := trySplitAt_some htry
        subst hr
        have hscan : splitScan pre (c :: tl) = some (pre ++ [c], t) := by
          conv_lhs => unfold splitScan
          rw [if_neg hNL, htry]
        have hcw : wsChar c = false := by
          by_contra hcw0
          have hcw1 : wsChar c = true := Bool.ne_false_iff.mp hcw0
          rcases hinv with hnone | ⟨hpre, hdw⟩
          · have hx : trySplitAt pre (c :: tl) = some (pre, t) := by
              rw [trySplitAt_ws_cons pre tl hcw1]
              exact trySplitAt_mk pre hscr hd hrt
            rw [hx] at hnone
            cases hnone
          · rw [List.dropWhile_cons_of_pos hcw1] at hdw
            have hlen := congrArg List.length hdw
            have hle := dropWhile_length_le wsChar tl
            simp at hlen
            omega
        have hnl2 : nlFree (pre ++ [c]) = true := by
          unfold nlFree at hnl ⊢
          rw [List.all_append, hnl, Bool.true_and, List.all_cons,
            List.all_nil, Bool.and_true]
          simpa using hNL
        have hL := splitFirstDashAux_of_trySplitAt tl (pre ++ [c]) t htry
          (by rw [rstripL_ends_not_ws pre c hcw]; simp)
          (by rw [rstripL_ends_not_ws pre c hcw]; exact hnl2)
        rw [rstripL_ends_not_ws pre c hcw] at hL
        rw [hscan]
        symm
        by_cases hcd : dashChar c = true
        · rcases hinv with hnone | ⟨hpre, -⟩
          · have hscr0 : (c :: tl).dropWhile wsChar = c :: tl := by
              rw [List.dropWhile_cons_of_neg (by simpa using hcw)]
            have hrt0 : reTail tl = none :=
              trySplitAt_none_reTail pre hscr0 hcd hnone
            conv_lhs => unfold splitFirstDashAux
            by_cases hcond : (dashChar c && !(rstripL pre).isEmpty &&
                nlFree (rstripL pre)) = true
            · rw [if_pos hcond, hrt0]
              exact hL
            · rw [if_neg hcond]
              exact hL
          · subst hpre
            conv_lhs => unfold splitFirstDashAux
            rw [if_neg (by simp [rstripL])]
            exact hL
        · conv_lhs => unfold splitFirstDashAux
          rw [if_neg (by simp [hcd])]
          exact hL
      | none =>
        have hscan : splitScan pre (c :: tl) = splitScan (pre ++ [c]) tl := by
          conv_lhs => unfold splitScan
          rw [if_neg hNL, htry]
        have hnl2 : nlFree (pre ++ [c]) = true := by
          unfold nlFree at hnl ⊢
          rw [List.all_append, hnl, Bool.true_and, List.all_cons,
            List.all_nil, Bool.and_true]
          simpa using hNL
        rw [hscan, ih (pre ++ [c]) (Or.inl htry) hnl2]
        by_cases hcd : dashChar c = true
        · have hcw : wsChar c = false := dash_not_ws hcd
          rcases hinv with hnone | ⟨hpre, -⟩
          · have hscr0 : (c :: tl).dropWhile wsChar = c :: tl := by
              rw [List.dropWhile_cons_of_neg (by simpa using hcw)]
            have hrt0 : reTail tl = none :=
              trySplitAt_none_reTail pre hscr0 hcd hnone
            conv_rhs => unfold splitFirstDashAux
            by_cases hcond : (dashChar c && !(rstripL pre).isEmpty &&
                nlFree (rstripL pre)) = true
            · rw [if_pos hcond, hrt0]
            · rw [if_neg hcond]
          · subst hpre
            conv_rhs => unfold splitFirstDashAux
            rw [if_neg (by simp [rstripL])]
        · conv_rhs => unfold splitFirstDashAux
          rw [if_neg (by simp [hcd])]

/-- C8 (counterexample): `_split_expr_and_text` uses the lazy regex
`^(?P<expr>.+?)\\s*[-\u2013\u2014]\\s*(?P<text>.+)$`, so an input with two
whitespace-surrounded dash separators is split at the FIRST one — the
expression is everything before the first separator, not before the last as
the claim states. -/
theorem split_expr_and_text_counterexample :
    split_expr_and_text "a - b - c" = some ("a", "b - c") ∧
    split_expr_and_text "a - b - c" ≠ some ("a - b", "c") :=
  ⟨rfl, by decide⟩

/-- C8 (amended): `_split_expr_and_text` strips the input (Python's Unicode
whitespace set), then splits it at the textually first dash-class character
(`-`, en dash, em dash) for which (a) the part before the dash, with the
whitespace run immediately preceding the dash removed, is nonempty and
contains no newline — regex `.` cannot cross `'\n'` — and (b) after the
whitespace run following the dash a nonempty remainder with no interior
newline is left.  Whitespace adjacent to the dash is consumed but not
required, and parsing fails exactly when no such dash exists — in
particular on a multiline body such as `"10:00 - call\nmom"` and whenever
either side would be empty. -/
theorem split_expr_and_text_eq_first_dash (s : String) :
    split_expr_and_text s = split_first_dash_spec s := by
  unfold split_expr_and_text split_first_dash_spec
  dsimp only
  rw [splitScan_eq_aux (stripL s.data) []
    (Or.inr ⟨rfl, dropWhile_stripL s.data⟩) rfl]

end DKReminders
